import Mathlib

/-!
Shallow embedding of the forecasting module `algodao/previsoes.py` of this
repository, together with proofs of its specified properties.

The price series is modelled as a `List ℚ` (exact arithmetic stands in for
IEEE floats).  Library calls that the module makes are embedded by their
documented semantics: sklearn's `MinMaxScaler` (fit / transform /
inverse_transform with the default feature range `[0, 1]`, including the
`_handle_zeros_in_scale` guard that replaces a zero data range by `1`),
sklearn's `mean_squared_error`, and numpy `reshape` (row-major regrouping).
The three trained predictors (Keras LSTM, Keras MLP, sklearn
`LinearRegression`) are opaque in the source — each is just a function from
one input window to one normalized output — so they appear here as function
parameters.
-/

namespace Previsoes

/-- Sliding-window length: `window = 10` (previsoes.py line 14). -/
def window : ℕ := 10

/-- Fitted state of sklearn's `MinMaxScaler` (default feature range `[0, 1]`)
on a single column: the column minimum and maximum seen at fit time. -/
structure MinMaxScaler where
  data_min : ℚ
  data_max : ℚ
deriving DecidableEq

/-- Minimum of a list of prices (the single column of `dados`). -/
def listMin (l : List ℚ) : ℚ := l.foldl min (l.headD 0)

/-- Maximum of a list of prices. -/
def listMax (l : List ℚ) : ℚ := l.foldl max (l.headD 0)

/-- Fitting the scaler on the full price series (previsoes.py line 12,
`scaler.fit_transform(dados)` computes `data_min_` and `data_max_`). -/
def fit (s : List ℚ) : MinMaxScaler := ⟨listMin s, listMax s⟩

/-- sklearn's `scale_` for feature range `[0, 1]`:
`1 / (data_max - data_min)`, where `_handle_zeros_in_scale` replaces a zero
range by `1` (so an all-constant series does not divide by zero). -/
def MinMaxScaler.scale (sc : MinMaxScaler) : ℚ :=
  if sc.data_max - sc.data_min = 0 then 1 else 1 / (sc.data_max - sc.data_min)

/-- Forward transform of one price: `(p - data_min) * scale_`. -/
def MinMaxScaler.transform (sc : MinMaxScaler) (p : ℚ) : ℚ :=
  (p - sc.data_min) * sc.scale

/-- Inverse transform of one normalized value: `v / scale_ + data_min`. -/
def MinMaxScaler.inverse_transform (sc : MinMaxScaler) (v : ℚ) : ℚ :=
  v / sc.scale + sc.data_min

/-- The normalized series `dados_scaled = scaler.fit_transform(dados)`
(previsoes.py line 12). -/
def dados_scaled (s : List ℚ) : List ℚ := s.map (fit s).transform

/-- The window matrix `X` built by the loop of previsoes.py lines 15-19:
for `i in range(window, len(dados_scaled))`, append
`dados_scaled[i-window:i]`. -/
def X (s : List ℚ) : List (List ℚ) :=
  (List.range' window (s.length - window)).map fun i =>
    ((dados_scaled s).drop (i - window)).take window

/-- The target vector `y` of the same loop: for each such `i`, append
`dados_scaled[i]`. -/
def y (s : List ℚ) : List ℚ :=
  (List.range' window (s.length - window)).map fun i => (dados_scaled s).getD i 0

/-- Row-major regrouping of a flat list into consecutive chunks of `k`
elements: the meaning of a numpy `reshape` that introduces an axis of
extent `k`. -/
def chunksOf (k : ℕ) (l : List ℚ) : List (List ℚ) :=
  if l = [] ∨ k = 0 then [] else l.take k :: chunksOf k (l.drop k)
termination_by l.length
decreasing_by
  rename_i h
  push_neg at h
  simp only [List.length_drop]
  have hl : 0 < l.length := List.length_pos.mpr h.1
  omega

/-- Line 20, `X_lstm = X.reshape((X.shape[0], X.shape[1], 1))`:
flatten the row-major window matrix and regroup it as
`shape[0]` slabs of `window` rows of one element each. -/
def X_lstm (s : List ℚ) : List (List (List ℚ)) :=
  (chunksOf window ((X s).flatMap id)).map (chunksOf 1)

/-- The last `window` normalized values, `dados_scaled[-window:]`
(previsoes.py lines 38, 57, 71).  For `len ≥ window` this is the final
window; Python's negative slice on a shorter list returns the whole list,
which `List.drop` with truncated subtraction also does. -/
def lastWindow (s : List ℚ) : List ℚ :=
  (dados_scaled s).drop ((dados_scaled s).length - window)

/-- Lines 37-40, `previsao_lstm`: reshape the last window to
`(1, window, 1)`, run the LSTM on that single sample, inverse-transform the
single output.  The trained network is the opaque `model_lstm`. -/
def previsao_lstm (model_lstm : List (List ℚ) → ℚ) (s : List ℚ) : ℚ :=
  (fit s).inverse_transform (model_lstm (chunksOf 1 (lastWindow s)))

/-- Lines 56-59, `previsao_mlp`: reshape the last window to
`(1, window)`, run the MLP, inverse-transform the single output. -/
def previsao_mlp (model_mlp : List ℚ → ℚ) (s : List ℚ) : ℚ :=
  (fit s).inverse_transform (model_mlp (lastWindow s))

/-- Lines 70-73, `previsao_reg_linear`: reshape the last
window to `(1, window)`, run the linear model, inverse-transform the single
output. -/
def previsao_reg_linear (model_lr : List ℚ → ℚ) (s : List ℚ) : ℚ :=
  (fit s).inverse_transform (model_lr (lastWindow s))

/-- sklearn's `mean_squared_error(y_true, y_pred)`: the mean of the
squared componentwise differences. -/
def mean_squared_error (y_true y_pred : List ℚ) : ℚ :=
  (List.zipWith (fun a b => (a - b) ^ 2) y_true y_pred).sum / (y_true.length : ℚ)

/-- Line 33, `y_original = scaler.inverse_transform(y.reshape(-1, 1))`:
the training targets back in original price units. -/
def y_original (s : List ℚ) : List ℚ := (y s).map (fit s).inverse_transform

/-- The in-sample root-mean-squared error in original units shared by the
three models (lines 31-35, 51-54, 65-68): inverse-transform the
predictions, compare with `y_original`, take the square root of the mean
squared difference.  `preds` is the model's normalized prediction for each
training input, in training order. -/
noncomputable def rmse_reais (s : List ℚ) (preds : List ℚ) : ℝ :=
  Real.sqrt ((mean_squared_error (y_original s)
    (preds.map (fit s).inverse_transform) : ℚ) : ℝ)

/-- Lines 31-35, `rmse_lstm_reais`: the LSTM predicts on every row of
`X_lstm`. -/
noncomputable def rmse_lstm_reais (model_lstm : List (List ℚ) → ℚ) (s : List ℚ) : ℝ :=
  rmse_reais s ((X_lstm s).map model_lstm)

/-- Lines 51-54, `rmse_mlp_reais`: the MLP predicts on every row of `X`. -/
noncomputable def rmse_mlp_reais (model_mlp : List ℚ → ℚ) (s : List ℚ) : ℝ :=
  rmse_reais s ((X s).map model_mlp)

/-- Lines 65-68, `rmse_lr_reais`: the linear model predicts on every row
of `X`. -/
noncomputable def rmse_lr_reais (model_lr : List ℚ → ℚ) (s : List ℚ) : ℝ :=
  rmse_reais s ((X s).map model_lr)

/-- The ambient process randomness (weight initialization, minibatch
shuffling) that the two Keras `fit` calls draw on.  The source pins no
seed, so this state is an arbitrary value threaded through startup. -/
structure RandomState where
  seed : ℕ
deriving DecidableEq

/-- Everything the module exports to `app.py`: the three next-price
predictions and the three errors (the predictions are produced on demand
by the `previsao_*` functions, from state fixed at startup). -/
structure StartupResult where
  lstm_val : ℚ
  mlp_val : ℚ
  lr_val : ℚ
  lstm_err : ℝ
  mlp_err : ℝ
  lr_err : ℝ

/-- The whole import-time computation of previsoes.py, with the library
fitting routines as parameters.  The two Keras fits (`model_lstm.fit`,
`model_mlp.fit`) each consume the ambient random state and advance it; the
sklearn `LinearRegression.fit` takes no randomness at all (it exposes no
random seed).  This mirrors the sequential order of the source: LSTM fit,
then MLP fit, then linear fit. -/
noncomputable def startup
    (kerasFitLSTM : List (List (List ℚ)) → List ℚ → RandomState →
      (List (List ℚ) → ℚ) × RandomState)
    (kerasFitMLP : List (List ℚ) → List ℚ → RandomState →
      (List ℚ → ℚ) × RandomState)
    (sklearnFitLR : List (List ℚ) → List ℚ → (List ℚ → ℚ))
    (s : List ℚ) (rng : RandomState) : StartupResult :=
  let fitted_lstm := kerasFitLSTM (X_lstm s) (y s) rng
  let fitted_mlp := kerasFitMLP (X s) (y s) fitted_lstm.2
  let model_lr := sklearnFitLR (X s) (y s)
  { lstm_val := previsao_lstm fitted_lstm.1 s
    mlp_val := previsao_mlp fitted_mlp.1 s
    lr_val := previsao_reg_linear model_lr s
    lstm_err := rmse_lstm_reais fitted_lstm.1 s
    mlp_err := rmse_mlp_reais fitted_mlp.1 s
    lr_err := rmse_lr_reais model_lr s }

/-- The `MinMaxScaler` as the mutable Python object `scaler`: its fitted
parameters (absent before any fit) plus a count of how many times a
fitting method has been called on it. -/
structure ScalerObject where
  params : Option MinMaxScaler
  fitCount : ℕ
deriving DecidableEq

/-- Calling `scaler.fit_transform(dados)`: store parameters computed from the data
(overwriting any previous fit) and return the transformed column. -/
def ScalerObject.fit_transform (sc : ScalerObject) (data : List ℚ) :
    List ℚ × ScalerObject :=
  (data.map (fit data).transform, ⟨some (fit data), sc.fitCount + 1⟩)

/-- Calling `scaler.inverse_transform(v)` on the object: reads the stored
parameters and leaves the object untouched (sklearn's inverse_transform
mutates nothing). -/
def ScalerObject.inv (sc : ScalerObject) (v : ℚ) : ℚ × ScalerObject :=
  ((sc.params.getD ⟨0, 1⟩).inverse_transform v, sc)

/-- The module-level state shared by every later call: the scaler object
and the normalized series, both created once at import time. -/
structure ModuleState where
  scaler : ScalerObject
  scaled : List ℚ
deriving DecidableEq

/-- Import-time initialization (previsoes.py lines 11-12): construct a
fresh scaler and call `fit_transform` on the full series, once. -/
def moduleInit (s : List ℚ) : ModuleState :=
  let ft := ScalerObject.fit_transform ⟨none, 0⟩ s
  ⟨ft.2, ft.1⟩

/-- A dashboard interaction: `app.py` can call any of the three
`previsao_*` functions, any number of times, in any order. -/
inductive DashboardOp where
  | lstmCall
  | mlpCall
  | lrCall
deriving DecidableEq

/-- One `previsao_*` call against the shared module state: slice the last
window of the stored normalized series, run the model, and put the single
output through the scaler object's inverse transform. -/
def runOp (mL : List (List ℚ) → ℚ) (mM mR : List ℚ → ℚ)
    (st : ModuleState) (op : DashboardOp) : ℚ × ModuleState :=
  match op with
  | .lstmCall =>
      let r := st.scaler.inv (mL (chunksOf 1
        (st.scaled.drop (st.scaled.length - window))))
      (r.1, ⟨r.2, st.scaled⟩)
  | .mlpCall =>
      let r := st.scaler.inv (mM (st.scaled.drop (st.scaled.length - window)))
      (r.1, ⟨r.2, st.scaled⟩)
  | .lrCall =>
      let r := st.scaler.inv (mR (st.scaled.drop (st.scaled.length - window)))
      (r.1, ⟨r.2, st.scaled⟩)

/-- The module state after an arbitrary sequence of dashboard calls. -/
def runOps (mL : List (List ℚ) → ℚ) (mM mR : List ℚ → ℚ)
    (st : ModuleState) (ops : List DashboardOp) : ModuleState :=
  ops.foldl (fun acc op => (runOp mL mM mR acc op).2) st

/-! ### Basic facts about the scaler -/

/-- The sklearn scale factor is never zero: a zero data range is replaced
by `1`, any other range `r` gives `1 / r ≠ 0`. -/
theorem MinMaxScaler.scale_ne_zero (sc : MinMaxScaler) : sc.scale ≠ 0 := by
  unfold MinMaxScaler.scale
  split
  · exact one_ne_zero
  · exact one_div_ne_zero ‹_›

/-- Round trip forward-then-inverse on an arbitrary value. -/
theorem MinMaxScaler.inverse_transform_transform (sc : MinMaxScaler) (p : ℚ) :
    sc.inverse_transform (sc.transform p) = p := by
  unfold MinMaxScaler.inverse_transform MinMaxScaler.transform
  rw [mul_div_assoc, div_self sc.scale_ne_zero, mul_one, sub_add_cancel]

/-- The inverse transform is injective (the scale factor is nonzero). -/
theorem MinMaxScaler.inverse_transform_injective (sc : MinMaxScaler)
    {a b : ℚ} (h : sc.inverse_transform a = sc.inverse_transform b) : a = b := by
  unfold MinMaxScaler.inverse_transform at h
  have h' : a / sc.scale = b / sc.scale := by linarith
  have := congrArg (· * sc.scale) h'
  simpa [div_mul_cancel₀, sc.scale_ne_zero] using this

/-- The sample series used by the spec's scenario:
`[10, 12, 11, 13, 15, 14, 16, 18, 17, 19, 20, 21]` (12 points). -/
def demoSeries : List ℚ := [10, 12, 11, 13, 15, 14, 16, 18, 17, 19, 20, 21]

/-- C5: normalization uses the global series minimum and maximum and the
inverse transform is its exact algebraic inverse: for every price `p` of the
original series, `inverse(normalize(p)) = p` (exactly, in ℚ). -/
theorem normalizer_round_trip (s : List ℚ) (p : ℚ) (_hp : p ∈ s) :
    (fit s).inverse_transform ((fit s).transform p) = p :=
  (fit s).inverse_transform_transform p

/-- Witness for C5 at the spec's scenario series and the price `12`. -/
theorem normalizer_round_trip_witness :
    (12 : ℚ) ∈ demoSeries ∧
      (fit demoSeries).inverse_transform ((fit demoSeries).transform 12) = 12 :=
  ⟨by decide, normalizer_round_trip demoSeries 12 (by decide)⟩

/-! ### Degenerate (constant) series: what the code actually does -/

/-- Folding `min` over a constant list never moves off the start value
once the constant has been absorbed. -/
theorem foldl_min_replicate (c a : ℚ) :
    ∀ n : ℕ, (List.replicate n c).foldl min a = if n = 0 then a else min a c := by
  intro n
  induction n generalizing a with
  | zero => rfl
  | succ m ih =>
      simp only [List.replicate_succ, List.foldl_cons, ih]
      rcases Nat.eq_zero_or_pos m with hm | hm
      · simp [hm]
      · simp [Nat.pos_iff_ne_zero.mp hm, min_assoc]

/-- Folding `max` over a constant list, same shape. -/
theorem foldl_max_replicate (c a : ℚ) :
    ∀ n : ℕ, (List.replicate n c).foldl max a = if n = 0 then a else max a c := by
  intro n
  induction n generalizing a with
  | zero => rfl
  | succ m ih =>
      simp only [List.replicate_succ, List.foldl_cons, ih]
      rcases Nat.eq_zero_or_pos m with hm | hm
      · simp [hm]
      · simp [Nat.pos_iff_ne_zero.mp hm, max_assoc]

/-- Fitting on a constant series gives equal min and max. -/
theorem fit_replicate (c : ℚ) (n : ℕ) (hn : n ≠ 0) :
    fit (List.replicate n c) = ⟨c, c⟩ := by
  rcases Nat.exists_eq_succ_of_ne_zero hn with ⟨m, rfl⟩
  unfold fit listMin listMax
  rw [List.replicate_succ]
  simp [foldl_min_replicate, foldl_max_replicate]

/-- C3 counterexample: on twelve copies of `15.0` the code does NOT fail.
The fitted scale is the `_handle_zeros_in_scale` fallback `1`, every price
normalizes to `0`, the window loop happily produces its 2 samples, and a
predict-next call returns an ordinary price (here `15`, for a predictor
that echoes the first window entry).  No `DegenerateSeries` error exists
anywhere in the module. -/
theorem degenerate_series_not_fatal_cex :
    (fit (List.replicate 12 (15 : ℚ))).scale = 1 ∧
    dados_scaled (List.replicate 12 (15 : ℚ)) = List.replicate 12 0 ∧
    (X (List.replicate 12 (15 : ℚ))).length = 2 ∧
    previsao_reg_linear (fun l => l.headD 0) (List.replicate 12 (15 : ℚ)) = 15 := by
  have hfit : fit (List.replicate 12 (15 : ℚ)) = ⟨15, 15⟩ :=
    fit_replicate 15 12 (by decide)
  have hds : dados_scaled (List.replicate 12 (15 : ℚ)) = List.replicate 12 0 := by
    rw [dados_scaled, hfit]
    simp [MinMaxScaler.transform]
  refine ⟨?_, hds, ?_, ?_⟩
  · rw [hfit]; simp [MinMaxScaler.scale]
  · simp [X, window]
  · rw [previsao_reg_linear, lastWindow, hds, hfit]
    simp [MinMaxScaler.inverse_transform, MinMaxScaler.scale, window]

/-- C3 amended: on an all-constant series the normalizer's zero range is
silently replaced by a unit scale, every price maps to `0`, the round trip
still recovers the original price, and the computation proceeds — no error
is raised. -/
theorem degenerate_series_unit_scale (c : ℚ) (n : ℕ) :
    (fit (List.replicate n c)).scale = 1 ∧
    dados_scaled (List.replicate n c) = List.replicate n 0 ∧
    (fit (List.replicate n c)).inverse_transform
      ((fit (List.replicate n c)).transform c) = c := by
  refine ⟨?_, ?_, (fit _).inverse_transform_transform c⟩
  · rcases Nat.eq_zero_or_pos n with hn | hn
    · subst hn
      simp [fit, listMin, listMax, MinMaxScaler.scale]
    · rw [fit_replicate c n (Nat.pos_iff_ne_zero.mp hn)]
      simp [MinMaxScaler.scale]
  · rcases Nat.eq_zero_or_pos n with hn | hn
    · subst hn; rfl
    · rw [dados_scaled, fit_replicate c n (Nat.pos_iff_ne_zero.mp hn)]
      simp [MinMaxScaler.transform, List.map_replicate]

/-! ### Short series: what the window loop actually does -/

/-- C4 counterexample: on a 3-point series (well below `window + 1`) the
window-preparation loop raises nothing at all; it just runs zero
iterations, leaving `X` and `y` empty.  There is no `InsufficientData`
check anywhere in the module. -/
theorem short_series_zero_samples_cex :
    X [15, 15, 15] = ([] : List (List ℚ)) ∧ y [15, 15, 15] = ([] : List ℚ) := by
  refine ⟨by decide, by decide⟩

/-- C4 amended: for every series no longer than `window` the loop produces
zero (window, target) pairs and no error; the process only dies later, when
the empty `X` is reshaped for the LSTM (a generic shape error from the
array library, not a named `InsufficientData` error). -/
theorem short_series_zero_samples (s : List ℚ) (h : s.length ≤ window) :
    X s = [] ∧ y s = [] := by
  have h0 : s.length - window = 0 := Nat.sub_eq_zero_of_le h
  constructor <;> simp [X, y, h0]

/-- Witness for the amended C4 at a concrete 5-point series. -/
theorem short_series_zero_samples_witness :
    ([10, 12, 11, 13, 15] : List ℚ).length ≤ window ∧
      (X [10, 12, 11, 13, 15] = [] ∧ y [10, 12, 11, 13, 15] = []) :=
  ⟨by decide, short_series_zero_samples _ (by decide)⟩

/-! ### Shape and indexing of the windowed training data -/

/-- Normalization does not change the series length. -/
theorem length_dados_scaled (s : List ℚ) : (dados_scaled s).length = s.length := by
  simp [dados_scaled]

/-- The loop runs `len - window` iterations, so `X` has that many rows. -/
theorem length_X (s : List ℚ) : (X s).length = s.length - window := by
  simp [X]

/-- Likewise `y` has `len - window` entries. -/
theorem length_y (s : List ℚ) : (y s).length = s.length - window := by
  simp [y]

/-- Row `i` of `X` is the slice `dados_scaled[i : i + window]`. -/
theorem getD_X (s : List ℚ) (i : ℕ) (hi : i < s.length - window) :
    (X s).getD i [] = ((dados_scaled s).drop i).take window := by
  rw [X, List.getD_eq_getElem?_getD, List.getElem?_map,
    List.getElem?_range' window 1 hi]
  simp [Nat.add_sub_cancel_left]

/-- Entry `i` of `y` is `dados_scaled[window + i]`. -/
theorem getD_y (s : List ℚ) (i : ℕ) (hi : i < s.length - window) :
    (y s).getD i 0 = (dados_scaled s).getD (window + i) 0 := by
  rw [y, List.getD_eq_getElem?_getD, List.getElem?_map,
    List.getElem?_range' window 1 hi]
  simp [List.getD_eq_getElem?_getD]

/-- C1: for every series longer than `window`, the window-preparation loop
produces exactly `len - window` (window, target) pairs; the `i`-th window
is the ordered slice of normalized prices at positions `i .. i+window-1`
and the `i`-th target is the normalized price at position `i + window`
(stride-1 sliding, chronological order preserved). -/
theorem prepare_windows_spec (s : List ℚ) (h : window < s.length) :
    (X s).length = s.length - window ∧
    (y s).length = s.length - window ∧
    ∀ i, i < s.length - window →
      ((X s).getD i []).length = window ∧
      (∀ j, j < window → ((X s).getD i []).getD j 0 =
        (dados_scaled s).getD (i + j) 0) ∧
      (y s).getD i 0 = (dados_scaled s).getD (i + window) 0 := by
  refine ⟨length_X s, length_y s, fun i hi => ⟨?_, fun j hj => ?_, ?_⟩⟩
  · rw [getD_X s i hi, List.length_take, List.length_drop, length_dados_scaled]
    omega
  · rw [getD_X s i hi, List.getD_eq_getElem?_getD, List.getElem?_take, if_pos hj,
      List.getElem?_drop, List.getD_eq_getElem?_getD]
  · rw [getD_y s i hi, Nat.add_comm]

/-- Witness for C1 at the spec's 12-point scenario series. -/
theorem prepare_windows_spec_witness :
    window < demoSeries.length ∧
    ((X demoSeries).length = demoSeries.length - window ∧
     (y demoSeries).length = demoSeries.length - window ∧
     ∀ i, i < demoSeries.length - window →
       ((X demoSeries).getD i []).length = window ∧
       (∀ j, j < window → ((X demoSeries).getD i []).getD j 0 =
         (dados_scaled demoSeries).getD (i + j) 0) ∧
       (y demoSeries).getD i 0 = (dados_scaled demoSeries).getD (i + window) 0) :=
  ⟨by decide, prepare_windows_spec demoSeries (by decide)⟩

/-- C2: every predict-next operation slices exactly the last `window`
normalized values of the series (positions `len-window .. len-1`, in
order), applies its predictor to that single window, inverse-transforms
the single normalized output, and returns that one scalar price. -/
theorem predict_next_last_window (mL : List (List ℚ) → ℚ) (mM mR : List ℚ → ℚ)
    (s : List ℚ) (h : window ≤ s.length) :
    (lastWindow s).length = window ∧
    (∀ k, k < window → (lastWindow s).getD k 0 =
      (dados_scaled s).getD (s.length - window + k) 0) ∧
    previsao_lstm mL s =
      (fit s).inverse_transform (mL (chunksOf 1 (lastWindow s))) ∧
    previsao_mlp mM s = (fit s).inverse_transform (mM (lastWindow s)) ∧
    previsao_reg_linear mR s = (fit s).inverse_transform (mR (lastWindow s)) := by
  refine ⟨?_, fun k _hk => ?_, rfl, rfl, rfl⟩
  · rw [lastWindow, List.length_drop, length_dados_scaled]
    omega
  · rw [lastWindow, List.getD_eq_getElem?_getD, List.getElem?_drop,
      List.getD_eq_getElem?_getD, length_dados_scaled]

/-- Witness for C2 at the scenario series with three concrete predictors. -/
theorem predict_next_last_window_witness :
    window ≤ demoSeries.length ∧
    ((lastWindow demoSeries).length = window ∧
     (∀ k, k < window → (lastWindow demoSeries).getD k 0 =
       (dados_scaled demoSeries).getD (demoSeries.length - window + k) 0) ∧
     previsao_lstm (fun _ => 0) demoSeries =
       (fit demoSeries).inverse_transform 0 ∧
     previsao_mlp (fun l => l.headD 0) demoSeries =
       (fit demoSeries).inverse_transform ((lastWindow demoSeries).headD 0) ∧
     previsao_reg_linear (fun l => l.sum) demoSeries =
       (fit demoSeries).inverse_transform (lastWindow demoSeries).sum) :=
  ⟨by decide, predict_next_last_window (fun _ => 0) (fun l => l.headD 0)
    (fun l => l.sum) demoSeries (by decide)⟩

/-! ### The LSTM tensor is a pure reshape of the window matrix -/

/-- Regrouping the empty flat list gives no chunks. -/
theorem chunksOf_nil (k : ℕ) : chunksOf k [] = [] := by
  rw [chunksOf]
  simp

/-- Peeling one full row off the front of the flat list. -/
theorem chunksOf_append (k : ℕ) (hk : k ≠ 0) (r t : List ℚ) (hr : r.length = k) :
    chunksOf k (r ++ t) = r :: chunksOf k t := by
  rw [chunksOf]
  have hrne : r ≠ [] := by
    intro hnil
    rw [hnil] at hr
    exact hk hr.symm
  rw [if_neg (by simp [hrne, hk])]
  rw [List.take_left' hr, List.drop_left' hr]

/-- Regrouping the row-major flattening of a matrix whose rows all have
length `k` recovers exactly the rows: this is why the
`(n, k) → (n, k, …)` reshape of previsoes.py line 20 loses nothing. -/
theorem chunksOf_flatMap (k : ℕ) (hk : k ≠ 0) :
    ∀ rows : List (List ℚ), (∀ r ∈ rows, r.length = k) →
      chunksOf k (rows.flatMap id) = rows := by
  intro rows
  induction rows with
  | nil => intro _; simp [chunksOf_nil]
  | cons r rs ih =>
      intro h
      rw [List.flatMap_cons, id]
      rw [chunksOf_append k hk r (rs.flatMap id) (h r (List.mem_cons_self r rs))]
      rw [ih fun a ha => h a (List.mem_cons_of_mem r ha)]

/-- Chunks of size one are just singletons, elementwise. -/
theorem chunksOf_one (l : List ℚ) : l.map (fun a => [a]) = chunksOf 1 l := by
  induction l with
  | nil => rw [chunksOf_nil]; rfl
  | cons a t ih =>
      rw [chunksOf]
      rw [if_neg (by simp)]
      simpa using ih

/-- Every row of `X` has length exactly `window`. -/
theorem length_mem_X (s : List ℚ) : ∀ r ∈ X s, r.length = window := by
  intro r hr
  rw [X, List.mem_map] at hr
  obtain ⟨i, hi, rfl⟩ := hr
  rw [List.mem_range'_1] at hi
  rw [List.length_take, List.length_drop, length_dados_scaled]
  omega

/-- The reshape of line 20 is the same data, row by row. -/
theorem X_lstm_eq_map (s : List ℚ) : X_lstm s = (X s).map (chunksOf 1) := by
  rw [X_lstm, chunksOf_flatMap window (by decide) (X s) (length_mem_X s)]

/-- C10: the 3-d LSTM input tensor is a pure reshape of the 2-d window
matrix: each entry `X[i][j]` is wrapped as the singleton `X_lstm[i][j]`,
so `X_lstm[i][j][0] = X[i][j]` at every index, and all three models train
on exactly the same (window, target) sample values. -/
theorem X_lstm_pure_reshape (s : List ℚ) :
    X_lstm s = (X s).map (fun r => r.map fun v => [v]) ∧
    ∀ i j : ℕ, (((X_lstm s).getD i []).getD j []).getD 0 0 =
      ((X s).getD i []).getD j 0 := by
  have hmap : X_lstm s = (X s).map (fun r => r.map fun v => [v]) := by
    rw [X_lstm_eq_map]
    exact List.map_congr_left fun r _ => (chunksOf_one r).symm
  refine ⟨hmap, fun i j => ?_⟩
  rw [hmap]
  rcases Nat.lt_or_ge i (X s).length with hi | hi
  · have h1 : ((X s).map (fun r => r.map fun v => [v])).getD i [] =
        ((X s).getD i []).map (fun v => [v]) := by
      rw [List.getD_eq_getElem ((X s).map fun r => r.map fun v => [v]) []
          (by simpa using hi),
        List.getElem_map, List.getD_eq_getElem (X s) [] hi]
    rw [h1]
    rcases Nat.lt_or_ge j ((X s).getD i []).length with hj | hj
    · have h2 : (((X s).getD i []).map fun v => [v]).getD j [] =
          [((X s).getD i []).getD j 0] := by
        rw [List.getD_eq_getElem (((X s).getD i []).map fun v => [v]) []
            (by simpa using hj),
          List.getElem_map, List.getD_eq_getElem ((X s).getD i []) 0 hj]
      rw [h2]
      rfl
    · have h2 : (((X s).getD i []).map fun v => [v]).getD j [] = [] :=
        List.getD_eq_default _ _ (by simpa using hj)
      have h3 : ((X s).getD i []).getD j 0 = 0 :=
        List.getD_eq_default _ _ hj
      rw [h2, h3]
      rfl
  · have h1 : ((X s).map (fun r => r.map fun v => [v])).getD i [] = [] :=
      List.getD_eq_default _ _ (by simpa using hi)
    have h2 : (X s).getD i [] = [] := List.getD_eq_default _ _ hi
    rw [h1, h2]
    rfl

/-! ### The RMSE computation -/

/-- The tensor `X_lstm` has one slab per training sample. -/
theorem length_X_lstm (s : List ℚ) : (X_lstm s).length = s.length - window := by
  rw [X_lstm_eq_map, List.length_map, length_X]

/-- A map hits each in-range position. -/
theorem getD_map_of_lt (f : ℚ → ℚ) (l : List ℚ) {i : ℕ} (h : i < l.length)
    (d e : ℚ) : (l.map f).getD i d = f (l.getD i e) := by
  rw [List.getD_eq_getElem (l.map f) d (by simpa using h), List.getElem_map,
    List.getD_eq_getElem l e h]

/-- The fold that sums the squared differences, re-expressed as an indexed
sum over the sample positions. -/
theorem sum_zipWith_eq_sum_range (f : ℚ → ℚ → ℚ) (l1 : List ℚ) :
    ∀ l2 : List ℚ, l1.length = l2.length →
      (List.zipWith f l1 l2).sum =
        ∑ i ∈ Finset.range l1.length, f (l1.getD i 0) (l2.getD i 0) := by
  induction l1 with
  | nil => intro l2 _; simp
  | cons a t ih =>
      intro l2 h
      cases l2 with
      | nil => simp at h
      | cons b t2 =>
          simp only [List.zipWith_cons_cons, List.sum_cons, List.length_cons]
          rw [Finset.sum_range_succ']
          simp only [List.getD_cons_succ, List.getD_cons_zero]
          rw [ih t2 (by simpa using h)]
          exact add_comm _ _

/-- The mean squared error of previsoes.py lines 34/53/67, written as the
mean of the squared deviations (prediction minus target, both in original
units) over the training positions. -/
theorem mean_squared_error_formula (s : List ℚ) (preds : List ℚ)
    (hl : preds.length = (y s).length) :
    mean_squared_error (y_original s) (preds.map (fit s).inverse_transform) =
      (∑ i ∈ Finset.range (y s).length,
        ((fit s).inverse_transform (preds.getD i 0) -
         (fit s).inverse_transform ((y s).getD i 0)) ^ 2) / ((y s).length : ℚ) := by
  rw [mean_squared_error, y_original]
  rw [sum_zipWith_eq_sum_range _ _ _ (by simp [hl])]
  rw [List.length_map]
  congr 1
  refine Finset.sum_congr rfl fun i hi => ?_
  rw [Finset.mem_range] at hi
  rw [getD_map_of_lt _ (y s) hi 0 0, getD_map_of_lt _ preds (hl ▸ hi) 0 0]
  ring

/-- C6: for each model the reported historical error is
`sqrt(mean((inverse(pred) − inverse(actual))²))` over all training inputs,
predictions and targets inverse-transformed to original units first. -/
theorem historical_rmse_formula (s : List ℚ) (mL : List (List ℚ) → ℚ)
    (mM mR : List ℚ → ℚ) :
    rmse_lstm_reais mL s = Real.sqrt (((∑ i ∈ Finset.range (y s).length,
      ((fit s).inverse_transform (((X_lstm s).map mL).getD i 0) -
       (fit s).inverse_transform ((y s).getD i 0)) ^ 2) / ((y s).length : ℚ) : ℚ)) ∧
    rmse_mlp_reais mM s = Real.sqrt (((∑ i ∈ Finset.range (y s).length,
      ((fit s).inverse_transform (((X s).map mM).getD i 0) -
       (fit s).inverse_transform ((y s).getD i 0)) ^ 2) / ((y s).length : ℚ) : ℚ)) ∧
    rmse_lr_reais mR s = Real.sqrt (((∑ i ∈ Finset.range (y s).length,
      ((fit s).inverse_transform (((X s).map mR).getD i 0) -
       (fit s).inverse_transform ((y s).getD i 0)) ^ 2) / ((y s).length : ℚ) : ℚ)) := by
  refine ⟨?_, ?_, ?_⟩
  · rw [rmse_lstm_reais, rmse_reais, mean_squared_error_formula s _
      (by rw [List.length_map, length_X_lstm, length_y])]
  · rw [rmse_mlp_reais, rmse_reais, mean_squared_error_formula s _
      (by rw [List.length_map, length_X, length_y])]
  · rw [rmse_lr_reais, rmse_reais, mean_squared_error_formula s _
      (by rw [List.length_map, length_X, length_y])]

/-- The mean squared error underlying each reported RMSE is nonnegative. -/
theorem mean_squared_error_nonneg (s : List ℚ) (preds : List ℚ)
    (hl : preds.length = (y s).length) :
    0 ≤ mean_squared_error (y_original s) (preds.map (fit s).inverse_transform) := by
  rw [mean_squared_error_formula s preds hl]
  refine div_nonneg (Finset.sum_nonneg fun i _ => sq_nonneg _) (by positivity)

/-- The reported RMSE vanishes exactly when the normalized predictions
coincide with the normalized targets, position by position. -/
theorem rmse_reais_eq_zero_iff (s : List ℚ) (preds : List ℚ)
    (hl : preds.length = (y s).length) :
    rmse_reais s preds = 0 ↔ preds = y s := by
  rw [rmse_reais, Real.sqrt_eq_zero']
  rw [show ((mean_squared_error (y_original s)
      (preds.map (fit s).inverse_transform) : ℚ) : ℝ) ≤ 0 ↔
    mean_squared_error (y_original s)
      (preds.map (fit s).inverse_transform) ≤ 0 from by exact_mod_cast Iff.rfl]
  rw [show mean_squared_error (y_original s)
        (preds.map (fit s).inverse_transform) ≤ 0 ↔
      mean_squared_error (y_original s)
        (preds.map (fit s).inverse_transform) = 0 from
    ⟨fun h => le_antisymm h (mean_squared_error_nonneg s preds hl),
     fun h => le_of_eq h⟩]
  rw [mean_squared_error_formula s preds hl]
  rcases Nat.eq_zero_or_pos (y s).length with h0 | hpos
  · have hy : y s = [] := List.length_eq_zero.mp h0
    have hp : preds = [] := List.length_eq_zero.mp (by rw [hl, h0])
    simp [hy, hp, h0]
  · rw [div_eq_zero_iff, or_iff_left (by positivity)]
    rw [Finset.sum_eq_zero_iff_of_nonneg fun i _ => sq_nonneg _]
    constructor
    · intro h
      refine List.ext_getElem (by rw [hl]) fun i h1 h2 => ?_
      have := h i (Finset.mem_range.mpr (by omega))
      rw [pow_eq_zero_iff (two_ne_zero), sub_eq_zero] at this
      have heq := (fit s).inverse_transform_injective this
      rw [List.getD_eq_getElem preds 0 h1, List.getD_eq_getElem (y s) 0 h2] at heq
      exact heq
    · intro h i _
      rw [h, sub_self, pow_eq_zero_iff (two_ne_zero)]

/-- C7: for all three models the computed RMSE is nonnegative, and it is
zero exactly when every prediction matches its target (the LSTM predicting
on the rows of `X_lstm`, the MLP and linear model on the rows of `X`). -/
theorem rmse_nonneg_and_zero_iff (s : List ℚ) (mL : List (List ℚ) → ℚ)
    (mM mR : List ℚ → ℚ) :
    (0 ≤ rmse_lstm_reais mL s ∧ 0 ≤ rmse_mlp_reais mM s ∧
      0 ≤ rmse_lr_reais mR s) ∧
    (rmse_lstm_reais mL s = 0 ↔ (X_lstm s).map mL = y s) ∧
    (rmse_mlp_reais mM s = 0 ↔ (X s).map mM = y s) ∧
    (rmse_lr_reais mR s = 0 ↔ (X s).map mR = y s) := by
  refine ⟨⟨Real.sqrt_nonneg _, Real.sqrt_nonneg _, Real.sqrt_nonneg _⟩,
    ?_, ?_, ?_⟩
  · exact rmse_reais_eq_zero_iff s _
      (by rw [List.length_map, length_X_lstm, length_y])
  · exact rmse_reais_eq_zero_iff s _
      (by rw [List.length_map, length_X, length_y])
  · exact rmse_reais_eq_zero_iff s _
      (by rw [List.length_map, length_X, length_y])

/-! ### Determinism of the linear branch and frozen scaler state -/

/-- C8: the linear pipeline is deterministic.  The ambient random state
feeds only the two Keras fits; whatever state it starts in — in
particular, across two identical reruns of `fit` + `predict_next` — the
linear model's prediction and its reported RMSE come out identical,
because `LinearRegression.fit` and `predict` are given no randomness at
all in the module's dataflow. -/
theorem linear_pipeline_deterministic
    (kerasFitLSTM : List (List (List ℚ)) → List ℚ → RandomState →
      (List (List ℚ) → ℚ) × RandomState)
    (kerasFitMLP : List (List ℚ) → List ℚ → RandomState →
      (List ℚ → ℚ) × RandomState)
    (sklearnFitLR : List (List ℚ) → List ℚ → (List ℚ → ℚ))
    (s : List ℚ) (r r' : RandomState) :
    (startup kerasFitLSTM kerasFitMLP sklearnFitLR s r).lr_val =
      (startup kerasFitLSTM kerasFitMLP sklearnFitLR s r').lr_val ∧
    (startup kerasFitLSTM kerasFitMLP sklearnFitLR s r).lr_err =
      (startup kerasFitLSTM kerasFitMLP sklearnFitLR s r').lr_err :=
  ⟨rfl, rfl⟩

/-- A dashboard call never touches the module state: the scaler object is
only read (via its inverse transform) and the normalized series is only
sliced. -/
theorem runOp_state_eq (mL : List (List ℚ) → ℚ) (mM mR : List ℚ → ℚ)
    (st : ModuleState) (op : DashboardOp) : (runOp mL mM mR st op).2 = st := by
  cases op <;> rfl

/-- Any sequence of dashboard calls leaves the module state untouched. -/
theorem runOps_state_eq (mL : List (List ℚ) → ℚ) (mM mR : List ℚ → ℚ) :
    ∀ (ops : List DashboardOp) (st : ModuleState),
      runOps mL mM mR st ops = st := by
  intro ops
  induction ops with
  | nil => intro st; rfl
  | cons op ops ih =>
      intro st
      have h1 : runOps mL mM mR st (op :: ops) =
          runOps mL mM mR (runOp mL mM mR st op).2 ops := rfl
      rw [h1, runOp_state_eq]
      exact ih st

/-- C9: the scaler is fitted exactly once, at startup, on the full series,
and its parameters stay frozen: after any sequence of dashboard calls the
fit counter is still `1` and the stored parameters are still `fit s`; the
shared normalized series is the one produced by that single fit; and every
predict-next call answers exactly the pure function that inverse-transforms
with those frozen parameters. -/
theorem scaler_frozen_after_startup (mL : List (List ℚ) → ℚ)
    (mM mR : List ℚ → ℚ) (s : List ℚ) (ops : List DashboardOp) :
    (runOps mL mM mR (moduleInit s) ops).scaler = ⟨some (fit s), 1⟩ ∧
    (runOps mL mM mR (moduleInit s) ops).scaled = dados_scaled s ∧
    (runOp mL mM mR (runOps mL mM mR (moduleInit s) ops)
      DashboardOp.lstmCall).1 = previsao_lstm mL s ∧
    (runOp mL mM mR (runOps mL mM mR (moduleInit s) ops)
      DashboardOp.mlpCall).1 = previsao_mlp mM s ∧
    (runOp mL mM mR (runOps mL mM mR (moduleInit s) ops)
      DashboardOp.lrCall).1 = previsao_reg_linear mR s := by
  rw [runOps_state_eq]
  exact ⟨rfl, rfl, rfl, rfl, rfl⟩

end Previsoes
